import Mathlib

/-!
Verification of the external-resolver CCIP-Read gateway.

This development gives a shallow embedding of the gateway's request/response
protocol engine (`packages/ccip-server/src/index.ts`), the multicall handler,
the HTTP transport adapter, the signing middleware (`withSigner` /
`makeMessageHash`) and the `text` read handler, and proves the behavioural
properties claimed of them.

Modelling conventions:
* byte strings (TS hex strings such as `0x1234`) are `List Nat`, one entry
  per byte; `hexlify` renders them back to the lowercase `0x…` string form;
* JavaScript `undefined` is `Option.none`; a thrown JS exception is
  `Except.error` carrying the string rendering of the thrown value;
* the external `ethers` ABI coder and `keccak256` are parameters of the
  definitions that call them, since they are library collaborators, except
  where a fixed concrete encoding is mandated (packed encoding, the
  `Error(string)` payload of the multicall handler).
-/

namespace ExternalResolver

/-- A byte string: one `Nat` (0‥255) per byte of the TS hex string. -/
abbrev Bytes := List Nat

/-- Render one byte as two lowercase hex characters (as `ethers.hexlify` does). -/
def byteHex (b : Nat) : List Char :=
  [Nat.digitChar (b / 16 % 16), Nat.digitChar (b % 16)]

/-- `ethers.utils.hexlify`: lowercase `0x…` rendering of a byte string. -/
def hexlify (b : Bytes) : String :=
  "0x" ++ String.mk (b.flatMap byteHex)

/-- Numeric value of one hex character (0 for junk, matching a total model). -/
def hexVal (c : Char) : Nat :=
  if '0' ≤ c ∧ c ≤ '9' then c.toNat - 48
  else if 'a' ≤ c ∧ c ≤ 'f' then c.toNat - 87
  else if 'A' ≤ c ∧ c ≤ 'F' then c.toNat - 55
  else 0

/-- Parse pairs of hex characters into bytes. -/
def hexPairs : List Char → Bytes
  | c1 :: c2 :: rest => (16 * hexVal c1 + hexVal c2) :: hexPairs rest
  | _ => []

/-- Parse a `0x…` hex string into the byte-string model. -/
def hexToBytes (s : String) : Bytes :=
  hexPairs (s.drop 2).toList

/-- Standard UTF-8 encoding of one character. -/
def utf8Char (c : Char) : Bytes :=
  let n := c.toNat
  if n < 0x80 then [n]
  else if n < 0x800 then [0xc0 + n / 64, 0x80 + n % 64]
  else if n < 0x10000 then [0xe0 + n / 4096, 0x80 + n / 64 % 64, 0x80 + n % 64]
  else [0xf0 + n / 262144, 0x80 + n / 4096 % 64, 0x80 + n / 64 % 64, 0x80 + n % 64]

/-- UTF-8 bytes of a string (`ethers.utils.toUtf8Bytes`). -/
def strBytes (s : String) : Bytes :=
  (s.data.map utf8Char).flatten

/-- Big-endian bytes of `n`, exactly `w` bytes wide (truncating above `256^w`). -/
def beBytes : Nat → Nat → Bytes
  | 0, _ => []
  | w + 1, n => beBytes w (n / 256) ++ [n % 256]

/-- One 32-byte ABI word holding the number `n`. -/
def abiWord (n : Nat) : Bytes := beBytes 32 n

/-- Right-pad a byte string with zeros to a multiple of 32 bytes. -/
def padRight32 (b : Bytes) : Bytes :=
  b ++ List.replicate ((32 - b.length % 32) % 32) 0

/-- `ethers.utils.defaultAbiCoder.encode(['string'], [s])`: offset word,
length word, then the right-padded UTF-8 data. -/
def abiEncodeString (s : String) : Bytes :=
  abiWord 32 ++ abiWord (strBytes s).length ++ padRight32 (strBytes s)

/-! ## Data model of the ccip-server (`packages/ccip-server/src/index.ts`) -/

/-- `RPCCall`: `{to, data}` (`to` is a reserved word in Lean, hence `dest`). -/
structure RPCCall where
  dest : Bytes
  data : Bytes
  deriving Repr, DecidableEq

/-- A decoded/encoded ABI value (the `any` universe the handlers traffic in).
`undef` is JavaScript `undefined`. -/
inductive Val where
  | bytes (b : Bytes)
  | str (s : String)
  | num (n : Nat)
  | arr (vs : List Val)
  | undef
  deriving Repr

/-- The `data` field of a response body: either a hex byte string (success
path) or a plain string (the error path stores the error message there). -/
inductive BodyData where
  | str (s : String)
  | bytes (b : Bytes)
  deriving Repr, DecidableEq

/-- A JSON response body as the server builds it: the fields that ever occur
are `data`, `message` and `ttl`; absent fields are `none`. -/
structure RPCBody where
  data : Option BodyData := none
  message : Option String := none
  ttl : Option Nat := none
  deriving Repr, DecidableEq

/-- `RPCResponse`: `{status, body}`. -/
structure RPCResponse where
  status : Nat
  body : RPCBody
  deriving Repr, DecidableEq

/-- The `error` field of a `HandlerResponse`. -/
structure HandlerError where
  message : String
  status : Nat
  deriving Repr, DecidableEq

/-- `HandlerResponse`: `{data?, extraData?, error?}`. -/
structure HandlerResponse where
  data : Option (List Val) := none
  extraData : Option Nat := none
  error : Option HandlerError := none
  deriving Repr

/-- `HandlerFunc`: an async business function. It resolves to a
`HandlerResponse` or to `undefined`/`void` (`none`), or rejects/throws
(`Except.error` with the string rendering of the thrown value). -/
abbrev HandlerFunc := List Val → RPCCall → Except String (Option HandlerResponse)

/-- ABI type descriptions as the handler table stores them (`bytes32`,
`string`, `bytes[]`, …). -/
abbrev AbiType := String

/-- `FunctionFragment`: the declared input and output types of one ABI
function. `outputs` is `none` when the fragment carries no output list at
all (JS `undefined`); a function declared without returns has `some []`. -/
structure FunctionFragment where
  inputs : List AbiType
  outputs : Option (List AbiType)
  deriving Repr, DecidableEq

/-- A registered handler: the function fragment plus the business function. -/
structure Handler where
  type : FunctionFragment
  func : HandlerFunc

/-- The external `ethers.utils.defaultAbiCoder`. Both operations throw on
bad input, hence `Except`. -/
structure AbiCoder where
  decode : List AbiType → Bytes → Except String (List Val)
  encode : List AbiType → List Val → Except String Bytes

/-- The handler table: 4-byte selector to handler. -/
abbrev HandlerTable := Bytes → Option Handler

/-- `Server`: holds the handler table. -/
structure Server where
  handlers : HandlerTable

/-- `result?.error` on an optional handler response. -/
def respError (r : Option HandlerResponse) : Option HandlerError :=
  r.bind (fun h => h.error)

/-- `result?.data` on an optional handler response. -/
def respData (r : Option HandlerResponse) : Option (List Val) :=
  r.bind (fun h => h.data)

/-- `result?.extraData` on an optional handler response. -/
def respExtra (r : Option HandlerResponse) : Option Nat :=
  r.bind (fun h => h.extraData)

/-- `Server.call` (index.ts lines 210–256): extract the selector, look up the
handler (404 when absent), ABI-decode the arguments (a decode failure throws
out of `call`), run the handler (a handler exception also propagates), then
build the response: an explicit handler error yields its declared status with
the message stored under the body's `data` key; otherwise status 200 with the
ABI-encoded return values, or `0x` when the fragment has no output list, the
handler resolved to `undefined`, or it returned no data values. -/
def serverCall (coder : AbiCoder) (handlers : HandlerTable) (call : RPCCall) :
    Except String RPCResponse :=
  let calldata := call.data
  let selector := calldata.take 4
  match handlers selector with
  | none =>
      .ok ⟨404, { message := some ("No implementation for function with selector " ++
        hexlify selector) }⟩
  | some handler =>
      match coder.decode handler.type.inputs (calldata.drop 4) with
      | .error e => .error e
      | .ok args =>
          match handler.func args call with
          | .error e => .error e
          | .ok result =>
              match respError result with
              | some err => .ok ⟨err.status, { data := some (.str err.message) }⟩
              | none =>
                  match handler.type.outputs, result with
                  | some outs, some r =>
                      match r.data with
                      | some vals =>
                          if vals.length ≠ 0 then
                            match coder.encode outs vals with
                            | .error e => .error e
                            | .ok enc =>
                                .ok ⟨200, { data := some (.bytes enc), ttl := respExtra result }⟩
                          else
                            .ok ⟨200, { data := some (.bytes []), ttl := respExtra result }⟩
                      | none =>
                          .ok ⟨200, { data := some (.bytes []), ttl := respExtra result }⟩
                  | _, _ =>
                      .ok ⟨200, { data := some (.bytes []), ttl := respExtra result }⟩

/-- The `call` method seen as acting on the server object: it reads the
handler table and returns the response; the object itself (in particular the
handler table) is returned as it was, since the method never assigns to
`this`. -/
def Server.callMethod (coder : AbiCoder) (s : Server) (c : RPCCall) :
    Except String RPCResponse × Server :=
  (serverCall coder s.handlers c, s)

/-! ## Handler registration (`Server.add`, index.ts lines 138–151) -/

/-- A handler description as passed to `Server.add`: a function name (or
signature) and the business function. -/
structure HandlerDescription where
  type : String
  func : HandlerFunc

/-- The external `ethers` `Interface`: resolves a name/signature to its
function fragment (`getFunction`, which throws on an unknown name, hence
`Option` here with the error raised by the caller) and computes the 4-byte
sighash of a fragment (`Interface.getSighash`). -/
structure AbiRegistry where
  getFunction : String → Option FunctionFragment
  getSighash : FunctionFragment → Bytes

/-- `this.handlers[sel] = h`: update one key of the handler table. -/
def tableInsert (t : HandlerTable) (sel : Bytes) (h : Handler) : HandlerTable :=
  fun s => if s = sel then some h else t s

/-- `Server.add`: for each handler description in order, resolve the function
fragment from the interface (throwing when the name is unknown, as
`Interface.getFunction` does) and assign `selector → handler` in the table. -/
def serverAdd (iface : AbiRegistry) (s : Server) (hs : List HandlerDescription) :
    Except String Server :=
  hs.foldlM
    (fun srv hd =>
      match iface.getFunction hd.type with
      | none => .error ("no matching function: " ++ hd.type)
      | some fn =>
          .ok ⟨tableInsert srv.handlers (iface.getSighash fn) ⟨fn, hd.func⟩⟩)
    s

/-- The registrations a call to `add` performs, in order: each description
that resolves contributes its `(sighash, handler)` pair. -/
def regList (iface : AbiRegistry) (hs : List HandlerDescription) :
    List (Bytes × Handler) :=
  hs.filterMap (fun hd =>
    (iface.getFunction hd.type).map
      (fun fn => (iface.getSighash fn, Handler.mk fn hd.func)))

/-- The handler registered last for a given selector in a registration list. -/
def lastFor (sel : Bytes) : List (Bytes × Handler) → Option Handler
  | [] => none
  | (s, h) :: rest =>
      match lastFor sel rest with
      | some h' => some h'
      | none => if s = sel then some h else none

/-- Left-biased choice on options. -/
def orO {α : Type} (a b : Option α) : Option α :=
  match a with
  | some x => some x
  | none => b

/-! ## Multicall handler (`Server.addMulticallSupport`, index.ts lines 96–130) -/

/-- `ethers.utils.id('Error(string)').slice(0, 10)`: the first 4 bytes of the
keccak hash of the string `Error(string)`. -/
def errorSelector (keccak : Bytes → Bytes) : Bytes :=
  (keccak (strBytes "Error(string)")).take 4

/-- `body.message || 'unknown error'`: JavaScript falsy fallback. -/
def messageOr (m : Option String) : String :=
  match m with
  | some s => if s = "" then "unknown error" else s
  | none => "unknown error"

/-- A `BodyData` as the JS value it is (`return body.data`). -/
def bodyDataVal : Option BodyData → Val
  | none => .undef
  | some (.str s) => .str s
  | some (.bytes b) => .bytes b

/-- The bytes value held by a decoded `bytes` entry. -/
def valBytes : Val → Bytes
  | .bytes b => b
  | _ => []

/-- One slot of the multicall result array: dispatch the inner call through
`this.call`; on status 200 return the body's `data`; on any other status
encode `Error(string)` with `body.message || 'unknown error'`; on a thrown
exception encode `Error(string)` with the string rendering of the error. -/
def multicallSlot (keccak : Bytes → Bytes)
    (callFn : RPCCall → Except String RPCResponse) (dest : Bytes) (data : Bytes) :
    Val :=
  match callFn ⟨dest, data⟩ with
  | .ok resp =>
      if resp.status = 200 then bodyDataVal resp.body.data
      else .bytes (errorSelector keccak ++ abiEncodeString (messageOr resp.body.message))
  | .error e => .bytes (errorSelector keccak ++ abiEncodeString e)

/-- The multicall business function (the closure registered by
`addMulticallSupport`); `callFn` is the `this.call` the closure captures. It
maps every inner call, in order, to its slot and wraps the resulting array as
the single output value. A non-array argument would make `args[0].map` throw. -/
def multicallFunc (keccak : Bytes → Bytes)
    (callFn : RPCCall → Except String RPCResponse) : HandlerFunc :=
  fun args call =>
    match args with
    | [Val.arr datas] =>
        let results := datas.map (fun d => multicallSlot keccak callFn call.dest (valBytes d))
        .ok (some { data := some [Val.arr results] })
    | _ => .error "TypeError: args[0].map is not a function"

/-- The function fragment of
`multicall(bytes[] calldata data) external returns (bytes[] memory results)`. -/
def multicallFragment : FunctionFragment :=
  ⟨["bytes[]"], some ["bytes[]"]⟩

/-! ## Transport adapter (`Server.handleRequest`, index.ts lines 181–208) -/

/-- The two HTTP methods the gateway serves. -/
inductive HttpMethod where
  | get
  | post
  deriving Repr, DecidableEq

/-- The pieces of an express request that `handleRequest` reads: the route
params (GET) and the JSON body fields (POST); any of them may be absent. -/
structure ExpressReq where
  method : HttpMethod
  paramsSender : Option String := none
  paramsCallData : Option String := none
  bodySender : Option String := none
  bodyData : Option String := none

/-- The sender extracted per method (`req.params.sender` / `req.body.sender`). -/
def ExpressReq.sender (r : ExpressReq) : Option String :=
  match r.method with
  | .get => r.paramsSender
  | .post => r.bodySender

/-- The calldata extracted per method (`req.params.callData` / `req.body.data`). -/
def ExpressReq.callData (r : ExpressReq) : Option String :=
  match r.method with
  | .get => r.paramsCallData
  | .post => r.bodyData

/-- Apply a string predicate to a possibly-absent value; `undefined` fails the
check (as `isAddress(undefined)`/`isBytesLike(undefined)` are false). -/
def optCheck (p : String → Bool) : Option String → Bool
  | some s => p s
  | none => false

/-- The HTTP response `handleRequest` produces: a status and a JSON body. -/
structure HttpReply where
  status : Nat
  body : RPCBody
  deriving Repr, DecidableEq

/-- `Server.handleRequest`: extract `(sender, callData)` per method, validate
them with `isAddress`/`isBytesLike` (responding 400 without dispatching when
either fails), then dispatch through `this.call`, mirroring the
`RPCResponse` status onto the HTTP status; an exception thrown by the
dispatch is caught and turned into a 500 response. The `isAddress` and
`isBytesLike` validators are the external `ethers` predicates, taken as
parameters. -/
def handleRequest (isAddress isBytesLike : String → Bool)
    (callFn : RPCCall → Except String RPCResponse) (req : ExpressReq) : HttpReply :=
  let sender := req.sender
  let callData := req.callData
  if !(optCheck isAddress sender && optCheck isBytesLike callData) then
    ⟨400, { message := some "Invalid request format" }⟩
  else
    match callFn ⟨hexToBytes (sender.getD ""), hexToBytes (callData.getD "")⟩ with
    | .ok resp => ⟨resp.status, resp.body⟩
    | .error e => ⟨500, { message := some ("Internal server error: " ++ e) }⟩

/-! ## Signing envelope (`middlewares/signer.ts`: `makeMessageHash`, `withSigner`) -/

/-- A value/type pair as `viem.encodePacked` consumes them (only the shapes
`makeMessageHash` uses). -/
inductive PackedVal where
  | bytes (b : Bytes)
  | address (a : Bytes)
  | uint64 (n : Nat)

/-- Packed encoding of one value: `bytes` as-is, `address` as its 20 bytes,
`uint64` as 8 big-endian bytes. -/
def packOne : PackedVal → Bytes
  | .bytes b => b
  | .address a => a
  | .uint64 n => beBytes 8 n

/-- `viem.encodePacked`: concatenation of the packed values. -/
def encodePacked (vs : List PackedVal) : Bytes :=
  (vs.map packOne).flatten

/-- `makeMessageHash(sender, ttl, calldata, response)`:
`keccak256(encodePacked(['bytes','address','uint64','bytes','bytes'],
['0x1900', sender, ttl, keccak256(calldata), keccak256(response)]))`.
`keccak` is the external keccak256, a parameter. -/
def makeMessageHash (keccak : Bytes → Bytes) (sender : Bytes) (ttl : Nat)
    (calldata response : Bytes) : Bytes :=
  keccak (encodePacked
    [.bytes [0x19, 0x00], .address sender, .uint64 ttl,
     .bytes (keccak calldata), .bytes (keccak response)])

/-- Modelled from the spec: the gateway's `formatTTL` helper lives in
`packages/gateway/src/services`, which is not among the sources; per the
spec's glossary a ttl is "an expiration offset in seconds" and the default is
"a fixed long-lived default such as 100 days", so `formatTTL` is modelled as
returning its argument, the offset in seconds. -/
def formatTTL (ttl : Nat) : Nat := ttl

/-- The JSON body `withSigner` intercepts: its `data` hex string and `ttl`. -/
structure MungBody where
  data : Option String := none
  ttl : Option Nat := none
  deriving Repr, DecidableEq

/-- JavaScript truthiness of an optional number (`!body.ttl`): absent and 0
are falsy. -/
def ttlFalsy : Option Nat → Bool
  | none => true
  | some n => n == 0

/-- JavaScript truthiness of an optional string (`!callData`, `body.data &&`):
absent and empty are falsy. -/
def strFalsy : Option String → Bool
  | none => true
  | some s => s == ""

/-- `s.slice(a, b)` on a JS string. -/
def sliceStr (s : String) (a b : Nat) : String :=
  String.mk ((s.toList.drop a).take (b - a))

/-- Does `p` start the list `s`? -/
def startsWithL (p s : List Char) : Bool :=
  match p, s with
  | [], _ => true
  | _ :: _, [] => false
  | a :: p', b :: s' => a == b && startsWithL p' s'

/-- Does `p` occur contiguously inside `s`? -/
def infixOfL (p : List Char) : List Char → Bool
  | [] => p.isEmpty
  | c :: rest => startsWithL p (c :: rest) || infixOfL p rest

/-- `s.includes(t)` on a JS string. -/
def includesStr (s t : String) : Bool :=
  infixOfL t.toList s.toList

/-- The external collaborators `withSigner` uses, as parameters: the
repository fetch composed with `JSON.stringify` (`fetchAndPrepareRecord`),
`viem`'s `packetToBytes`, `keccak256`, the account's `signMessage`, and
`decodeAbiParameters([{type:'bytes[]'}], …)` (returning the decoded array of
hex strings). -/
structure SignerDeps where
  fetchRecordJson : String → String
  packetToBytes : String → Bytes
  keccak : Bytes → Bytes
  signMessage : Bytes → Bytes
  decodeBytesArr : String → List String

/-- What the `withSigner` middleware produces for one response: either the
JSON body returned as-is (the early return, unsigned), or a signed envelope.
The `signed` form records the integrity marker persisted on the record
(`nodeHash`, `constitutionHash`) and the components of the
`encodeAbiParameters('bytes,uint64,bytes', [data, ttl, sig])` payload. -/
inductive SignerResult where
  | plain (body : MungBody)
  | signed (nodeHash : String) (constitutionHash : Bytes)
      (data : String) (ttl : Nat) (sig : Bytes)
  deriving Repr, DecidableEq

/-- The ttl-defaulting step `if (!body.ttl) body.ttl = formatTTL(3600*24*100)`. -/
def defaultTtlBody (body : MungBody) : MungBody :=
  if ttlFalsy body.ttl then { body with ttl := some (formatTTL (3600 * 24 * 100)) }
  else body

/-- The async callback `withSigner` hands to `mung.jsonAsync` (signer.ts
lines 24–95): extract sender/callData per method, default a falsy ttl, and
return the body untouched otherwise when there is no calldata or the
response data is `0x`; otherwise locate the node hash (directly for
`setText` calldata `0x10f13a8c`, through the decoded inner call array for
`multicall` calldata `0xac9650d8`), recompute and persist the constitution
hash, for those two shapes overwrite the response data with
`nodeHash ++ constitutionHash`, and sign `makeMessageHash` over the result. -/
def withSignerBody (deps : SignerDeps) (req : ExpressReq) (body : MungBody) :
    SignerResult :=
  let sender := req.sender
  let callData := req.callData
  let body := defaultTtlBody body
  if strFalsy callData || body.data == some "0x" then .plain body
  else
    let cd := callData.getD ""
    let isSetText := sliceStr cd 0 10 == "0x10f13a8c"
    let isMulticallSetText :=
      sliceStr cd 0 10 == "0xac9650d8" && includesStr cd "10f13a8c"
    let nodeHash := "0x"
    let nodeHash :=
      if isSetText && !strFalsy body.data then sliceStr (body.data.getD "") 0 66
      else nodeHash
    let nodeHash :=
      if isMulticallSetText then
        let dec := deps.decodeBytesArr (body.data.getD "")
        sliceStr (dec.getLastD "") 0 66
      else nodeHash
    let constitutionHash :=
      deps.keccak (deps.packetToBytes (deps.fetchRecordJson nodeHash))
    let body :=
      if isMulticallSetText || isSetText then
        { body with data := some (nodeHash ++ sliceStr (hexlify constitutionHash) 2 66) }
      else body
    let ttlVal := body.ttl.getD 0
    let msgHash := makeMessageHash deps.keccak (hexToBytes (sender.getD ""))
      ttlVal (hexToBytes cd) (hexToBytes (body.data.getD ""))
    let sig := deps.signMessage msgHash
    .signed nodeHash constitutionHash (body.data.getD "") ttlVal sig

/-! ## Gateway `text` read handler (`packages/gateway/src/handlers/text.ts`) -/

/-- `withGetText`: the business function of the
`text(bytes32 node, string key) view returns (string)` handler. The
repository's `getText` (a parameter) resolves to the stored record or
`undefined`; when a record exists the handler returns it as the single data
value with a 100-day ttl, and otherwise resolves to `undefined`. -/
def withGetTextFunc (getText : Bytes → String → Option Val) : HandlerFunc :=
  fun args _ =>
    match args with
    | [Val.bytes node, Val.str key] =>
        match getText node key with
        | some t =>
            .ok (some { data := some [t], extraData := some (formatTTL (3600 * 24 * 100)) })
        | none => .ok none
    | _ => .ok none

/-- The fragment of `text(bytes32 node, string key) view returns (string)`. -/
def textFragment : FunctionFragment :=
  ⟨["bytes32", "string"], some ["string"]⟩

/-! ## Concrete fixtures used by witnesses and counterexamples -/

/-- An ABI coder whose decode yields no arguments and whose encode yields the
empty byte string (for fixtures whose handlers take no inputs). -/
def cCoder : AbiCoder := ⟨fun _ _ => .ok [], fun _ _ => .ok []⟩

/-- A handler that reports the explicit application error
`{message: 'Unauthorized', status: 401}`. -/
def cErrHandler : Handler :=
  ⟨⟨[], some []⟩, fun _ _ => .ok (some { error := some ⟨"Unauthorized", 401⟩ })⟩

/-- A table registering `cErrHandler` under selector `0x01020304`. -/
def cErrTable : HandlerTable :=
  fun s => if s = [1, 2, 3, 4] then some cErrHandler else none

/-- A handler whose promise rejects. -/
def cThrowHandler : Handler :=
  ⟨⟨[], some []⟩, fun _ _ => .error "Error: boom"⟩

/-- A table registering `cThrowHandler` under selector `0x01020304`. -/
def cThrowTable : HandlerTable :=
  fun s => if s = [1, 2, 3, 4] then some cThrowHandler else none

/-- An ABI coder whose decode always throws (malformed calldata). -/
def cBadDecodeCoder : AbiCoder :=
  ⟨fun _ _ => .error "Error: invalid calldata", fun _ _ => .ok []⟩

/-- The empty server: no handlers registered. -/
def cEmptyServer : Server := ⟨fun _ => none⟩

/-! ## Claims about the dispatch engine -/

/-- Claim C5: for every call whose 4-byte selector has no registered handler,
the dispatch returns status 404 with the descriptive message naming the
selector, and the server (its handler table) is unchanged by the lookup. -/
theorem unregistered_selector_404 (coder : AbiCoder) (s : Server) (c : RPCCall)
    (h : s.handlers (c.data.take 4) = none) :
    Server.callMethod coder s c =
      (.ok ⟨404, { message := some ("No implementation for function with selector " ++
        hexlify (c.data.take 4)) }⟩, s) := by
  simp [Server.callMethod, serverCall, h]

/-- Witness for C5: the selector `0xdeadbeef` on an empty table yields the
404 response with the rendered selector in the message, table unchanged. -/
theorem unregistered_selector_404_witness :
    Server.callMethod cCoder cEmptyServer ⟨[], [0xde, 0xad, 0xbe, 0xef]⟩ =
      (.ok ⟨404,
        { message := some "No implementation for function with selector 0xdeadbeef" }⟩,
        cEmptyServer) := by
  have h := unregistered_selector_404 cCoder cEmptyServer
    ⟨[], [0xde, 0xad, 0xbe, 0xef]⟩ rfl
  rw [h]
  rfl

/-- Claim C4 (code bug evidence): a handler that reports the explicit
application error `{message: 'Unauthorized', status: 401}` is dispatched to a
response with the declared status 401, but the body stores the message under
the `data` key and carries no `message` field, while the spec's failure shape
(and the repo's own multicall and test-helper consumers, which read
`body.message`) require `{message: string}`. -/
theorem handler_error_message_under_data_key :
    serverCall cCoder cErrTable ⟨[], [1, 2, 3, 4]⟩ =
      .ok ⟨401, { data := some (.str "Unauthorized"), message := none, ttl := none }⟩ := by
  rfl

/-- Claim C2 (counterexample): a handler whose promise rejects makes
`Server.call` itself throw — the dispatch yields no `RPCResponse` at all
(in particular no 400-class response carrying the message). -/
theorem handler_throw_escapes_call :
    serverCall cCoder cThrowTable ⟨[], [1, 2, 3, 4]⟩ = .error "Error: boom" ∧
    (serverCall cCoder cThrowTable ⟨[], [1, 2, 3, 4]⟩).toOption = none := by
  exact ⟨rfl, rfl⟩

/-- Claim C2 (amended): a thrown/rejected handler error is not caught by
`Server.call`; it propagates out of the dispatch as a thrown error, so the
dispatch produces no `RPCResponse` at all (in particular no 400-class one),
and it is `handleRequest` that catches it, converting it to a 500 response
whose message carries the error string. The first two conjuncts hold for an
arbitrary call reaching the throwing handler; the last shows the transport
conversion when that call comes from a validated request. -/
theorem handler_throw_propagates (coder : AbiCoder) (handlers : HandlerTable)
    (c : RPCCall) (h : Handler) (args : List Val) (e : String)
    (isA isB : String → Bool) (req : ExpressReq) (sStr cdStr : String)
    (hh : handlers (c.data.take 4) = some h)
    (hdec : coder.decode h.type.inputs (c.data.drop 4) = .ok args)
    (hfun : h.func args c = .error e)
    (hsender : req.sender = some sStr) (hcd : req.callData = some cdStr)
    (hva : isA sStr = true) (hvb : isB cdStr = true)
    (hc : c = ⟨hexToBytes sStr, hexToBytes cdStr⟩) :
    serverCall coder handlers c = .error e ∧
    (∀ r : RPCResponse, serverCall coder handlers c ≠ .ok r) ∧
    handleRequest isA isB (serverCall coder handlers) req =
      ⟨500, { message := some ("Internal server error: " ++ e) }⟩ := by
  have hcall : serverCall coder handlers c = .error e := by
    simp [serverCall, hh, hdec, hfun]
  refine ⟨hcall, fun r hr => ?_, ?_⟩
  · rw [hcall] at hr
    exact Except.noConfusion hr
  · subst hc
    simp [handleRequest, hsender, hcd, optCheck, hva, hvb, hcall]

/-- Witness for C2 (amended): a rejecting handler behind a valid POST request
surfaces as HTTP 500 `Internal server error: Error: boom`, with the dispatch
itself yielding the thrown error rather than any response. -/
theorem handler_throw_propagates_witness :
    serverCall cCoder cThrowTable ⟨hexToBytes "0xab", hexToBytes "0x01020304"⟩ =
      .error "Error: boom" ∧
    handleRequest (fun _ => true) (fun _ => true) (serverCall cCoder cThrowTable)
        { method := .post, bodySender := some "0xab", bodyData := some "0x01020304" } =
      ⟨500, { message := some "Internal server error: Error: boom" }⟩ := by
  have h := handler_throw_propagates cCoder cThrowTable
    ⟨hexToBytes "0xab", hexToBytes "0x01020304"⟩ cThrowHandler [] "Error: boom"
    (fun _ => true) (fun _ => true)
    { method := .post, bodySender := some "0xab", bodyData := some "0x01020304" }
    "0xab" "0x01020304" rfl rfl rfl rfl rfl rfl rfl rfl
  exact ⟨h.1, h.2.2⟩

/-- Claim C3 (counterexample): when the ABI decode of the calldata fails, the
dispatch does not produce a 400-class `RPCResponse`; the decode exception
escapes `Server.call`, which yields no response at all. -/
theorem decode_failure_escapes_call :
    serverCall cBadDecodeCoder cErrTable ⟨[], [1, 2, 3, 4]⟩ =
      .error "Error: invalid calldata" ∧
    (serverCall cBadDecodeCoder cErrTable ⟨[], [1, 2, 3, 4]⟩).toOption = none := by
  exact ⟨rfl, rfl⟩

/-- Claim C3 (amended): a decode failure throws out of `Server.call` with the
decode error (surfaced by the transport as a 500, not a 400), and the handler
is never invoked: the outcome is the same whatever business function is
registered for the selector. -/
theorem decode_failure_throws (coder : AbiCoder) (handlers : HandlerTable)
    (c : RPCCall) (h : Handler) (e : String)
    (hh : handlers (c.data.take 4) = some h)
    (hdec : coder.decode h.type.inputs (c.data.drop 4) = .error e) :
    serverCall coder handlers c = .error e ∧
    (∀ f : HandlerFunc,
      serverCall coder (tableInsert handlers (c.data.take 4) ⟨h.type, f⟩) c = .error e) := by
  constructor
  · simp [serverCall, hh, hdec]
  · intro f
    simp [serverCall, tableInsert, hdec]

/-- Witness for C3 (amended): concrete malformed calldata under a registered
selector makes the dispatch throw the decode error for any handler body. -/
theorem decode_failure_throws_witness :
    serverCall cBadDecodeCoder cErrTable ⟨[], [1, 2, 3, 4]⟩ =
      .error "Error: invalid calldata" ∧
    serverCall cBadDecodeCoder
        (tableInsert cErrTable [1, 2, 3, 4] ⟨cErrHandler.type, cThrowHandler.func⟩)
        ⟨[], [1, 2, 3, 4]⟩ =
      .error "Error: invalid calldata" := by
  have h := decode_failure_throws cBadDecodeCoder cErrTable ⟨[], [1, 2, 3, 4]⟩
    cErrHandler "Error: invalid calldata" rfl rfl
  exact ⟨h.1, h.2 cThrowHandler.func⟩

/-- Claim C9: for every inbound request, if the extracted sender fails
`isAddress` or the extracted callData fails `isBytesLike` (absent values
fail), the transport responds 400 `Invalid request format` without invoking
the dispatch (the response is the same for every dispatch function);
otherwise, when the dispatch returns a response, the HTTP status and body
mirror it exactly. -/
theorem transport_validation (isA isB : String → Bool) (req : ExpressReq) :
    ((optCheck isA req.sender && optCheck isB req.callData) = false →
      ∀ callFn, handleRequest isA isB callFn req =
        ⟨400, { message := some "Invalid request format" }⟩) ∧
    ((optCheck isA req.sender && optCheck isB req.callData) = true →
      ∀ callFn resp,
        callFn ⟨hexToBytes (req.sender.getD ""), hexToBytes (req.callData.getD "")⟩ =
          .ok resp →
        handleRequest isA isB callFn req = ⟨resp.status, resp.body⟩) := by
  constructor
  · intro hbad callFn
    simp [handleRequest, hbad]
  · intro hgood callFn resp hcall
    simp [handleRequest, hgood, hcall]

/-- Witness for C9: an invalid request is refused with 400 independently of
the dispatch, and a valid one mirrors the dispatch's 404. -/
theorem transport_validation_witness :
    handleRequest (fun _ => false) (fun _ => true)
        (serverCall cCoder cEmptyServer.handlers)
        { method := .post, bodySender := some "zzz", bodyData := some "0x01020304" } =
      ⟨400, { message := some "Invalid request format" }⟩ ∧
    handleRequest (fun _ => true) (fun _ => true)
        (serverCall cCoder cEmptyServer.handlers)
        { method := .post, bodySender := some "0xab", bodyData := some "0x01020304" } =
      ⟨404,
        { message := some "No implementation for function with selector 0x01020304" }⟩ := by
  constructor
  · exact (transport_validation (fun _ => false) (fun _ => true)
      { method := .post, bodySender := some "zzz", bodyData := some "0x01020304" }).1
      rfl (serverCall cCoder cEmptyServer.handlers)
  · exact (transport_validation (fun _ => true) (fun _ => true)
      { method := .post, bodySender := some "0xab", bodyData := some "0x01020304" }).2
      rfl (serverCall cCoder cEmptyServer.handlers)
      ⟨404, { message := some "No implementation for function with selector 0x01020304" }⟩
      (by rfl)

/-- Claim C6: for every sender, ttl, calldata and response data, the signing
digest equals keccak of the packed concatenation, in this order, of the
two-byte prefix `0x1900`, the sender address bytes, the ttl as an 8-byte
big-endian uint64, keccak of the calldata, and keccak of the response data. -/
theorem signing_digest_layout (keccak : Bytes → Bytes) (sender : Bytes)
    (ttl : Nat) (calldata response : Bytes) :
    makeMessageHash keccak sender ttl calldata response =
      keccak ([0x19, 0x00] ++ sender ++ beBytes 8 ttl ++
        keccak calldata ++ keccak response) := by
  simp [makeMessageHash, encodePacked, packOne]

/-! ## Claims about the signing middleware -/

/-- Inert signer collaborators for concrete evaluations. -/
def cSignerDeps : SignerDeps :=
  ⟨fun _ => "", fun _ => [], fun _ => [], fun _ => [], fun _ => []⟩

/-- A GET request carrying calldata. -/
def cSignerReq : ExpressReq :=
  { method := .get, paramsSender := some "0xab", paramsCallData := some "0x1234" }

/-- A body whose ttl is present with value 0. -/
def cSignerBody : MungBody := { data := some "0x", ttl := some 0 }

/-- Claim C10 (counterexample): a body whose `data` is `0x` but whose ttl is
present with value 0 is not returned unchanged — the falsy ttl is overwritten
with the 100-day default even though it was not missing. -/
theorem signer_zero_ttl_rewritten :
    withSignerBody cSignerDeps cSignerReq cSignerBody =
      .plain { data := some "0x", ttl := some 8640000 } ∧
    withSignerBody cSignerDeps cSignerReq cSignerBody ≠ .plain cSignerBody := by
  exact ⟨rfl, by decide⟩

/-- Claim C10 (amended): when the request carries no calldata or the body's
`data` is `0x`, the middleware returns the JSON body unsigned — no
fingerprint or signature is computed (the result is independent of the
collaborators and is the plain body) — and otherwise unchanged except that a
missing or zero ttl is defaulted to 100 days in seconds. -/
theorem signer_early_return (deps : SignerDeps) (req : ExpressReq)
    (body : MungBody)
    (h : strFalsy req.callData = true ∨ body.data = some "0x") :
    withSignerBody deps req body = .plain (defaultTtlBody body) ∧
    (defaultTtlBody body).data = body.data ∧
    (ttlFalsy body.ttl = false → defaultTtlBody body = body) := by
  have hdata : (defaultTtlBody body).data = body.data := by
    unfold defaultTtlBody
    split <;> rfl
  refine ⟨?_, hdata, ?_⟩
  · have hcond : (strFalsy req.callData ||
        (defaultTtlBody body).data == some "0x") = true := by
      rcases h with h | h
      · simp [h]
      · simp [hdata, h]
    simp only [withSignerBody, hcond, if_true]
  · intro hf
    unfold defaultTtlBody
    simp [hf]

/-- Witness for C10 (amended): a `0x` data body is passed through unsigned
with the ttl default applied. -/
theorem signer_early_return_witness :
    withSignerBody cSignerDeps cSignerReq { data := some "0x" } =
      .plain { data := some "0x", ttl := some 8640000 } ∧
    ({ data := some "0x", ttl := some 8640000 } : MungBody) =
      defaultTtlBody { data := some "0x" } := by
  have h := signer_early_return cSignerDeps cSignerReq { data := some "0x" }
    (Or.inr rfl)
  exact ⟨h.1, rfl⟩

/-! ## Claims about handler registration -/

/-- Claim C8: registering handlers never fails when every name resolves, and
after any sequence of registrations each selector maps to exactly the handler
registered last for it (falling back to the pre-existing table entry when the
sequence never touches the selector) — re-registration silently replaces. -/
theorem add_last_write_wins (iface : AbiRegistry) (s : Server)
    (hs : List HandlerDescription)
    (hres : ∀ hd ∈ hs, (iface.getFunction hd.type).isSome = true) :
    ∃ s', serverAdd iface s hs = .ok s' ∧
      ∀ sel, s'.handlers sel =
        orO (lastFor sel (regList iface hs)) (s.handlers sel) := by
  induction hs generalizing s with
  | nil =>
      refine ⟨s, rfl, fun sel => ?_⟩
      simp [regList, lastFor, orO]
  | cons hd tl ih =>
      obtain ⟨fn, hfn⟩ := Option.isSome_iff_exists.mp (hres hd (by simp))
      have hstep : serverAdd iface s (hd :: tl) =
          serverAdd iface
            ⟨tableInsert s.handlers (iface.getSighash fn) ⟨fn, hd.func⟩⟩ tl := by
        simp only [serverAdd, List.foldlM_cons, hfn]
        rfl
      obtain ⟨s', h1, h2⟩ :=
        ih ⟨tableInsert s.handlers (iface.getSighash fn) ⟨fn, hd.func⟩⟩
          (fun hd' hmem => hres hd' (List.mem_cons_of_mem _ hmem))
      refine ⟨s', hstep ▸ h1, fun sel => ?_⟩
      have hreg : regList iface (hd :: tl) =
          (iface.getSighash fn, Handler.mk fn hd.func) :: regList iface tl := by
        simp [regList, hfn]
      rw [h2 sel, hreg]
      cases hlast : lastFor sel (regList iface tl) with
      | some h' => simp [lastFor, hlast, orO]
      | none =>
          by_cases hsel : sel = iface.getSighash fn
          · subst hsel
            simp [lastFor, hlast, orO, tableInsert]
          · have hsel' : ¬(iface.getSighash fn = sel) := fun hx => hsel hx.symm
            simp [lastFor, hlast, orO, tableInsert, hsel, hsel']

/-- A registry resolving the single name `f` to a nullary fragment with
sighash `0x01020304`. -/
def cRegistry : AbiRegistry :=
  ⟨fun n => if n = "f" then some ⟨[], some []⟩ else none, fun _ => [1, 2, 3, 4]⟩

/-- First business function registered for `f`. -/
def cFuncA : HandlerFunc := fun _ _ => .ok none

/-- Second business function registered for `f`. -/
def cFuncB : HandlerFunc := fun _ _ => .ok (some {})

/-- Witness for C8: registering `f` twice leaves the table mapping the
sighash to the handler registered last. -/
theorem add_last_write_wins_witness :
    (serverAdd cRegistry cEmptyServer [⟨"f", cFuncA⟩, ⟨"f", cFuncB⟩]).map
        (fun s' => s'.handlers [1, 2, 3, 4]) =
      .ok (some ⟨⟨[], some []⟩, cFuncB⟩) := by
  obtain ⟨s', h1, h2⟩ := add_last_write_wins cRegistry cEmptyServer
    [⟨"f", cFuncA⟩, ⟨"f", cFuncB⟩]
    (by intro hd hmem; fin_cases hmem <;> rfl)
  rw [h1]
  simp only [Except.map]
  rw [h2]
  rfl

/-! ## Claim about the success-path encoding -/

/-- Claim C7: for every successfully dispatched call (the handler ran without
throwing, reported no error, and the dispatch returned a response), the
status is 200, the body's data is the empty byte string `0x` whenever the
fragment declares no outputs or the handler returned no data values, and
otherwise it is exactly the ABI encoding of the handler's returned values per
the declared output types. `hLen` captures the documented behaviour of the
external coder: encoding succeeds only when the type and value lists have
equal length. In particular (see the witness) reading a `text` record for a
node with no stored records yields status 200 with `0x`, not an error. -/
theorem dispatch_success_encoding (coder : AbiCoder) (handlers : HandlerTable)
    (c : RPCCall) (h : Handler) (args : List Val)
    (result : Option HandlerResponse) (resp : RPCResponse)
    (hLen : ∀ ts vs b, coder.encode ts vs = .ok b → ts.length = vs.length)
    (hh : handlers (c.data.take 4) = some h)
    (hdec : coder.decode h.type.inputs (c.data.drop 4) = .ok args)
    (hfun : h.func args c = .ok result)
    (herr : respError result = none)
    (hok : serverCall coder handlers c = .ok resp) :
    resp.status = 200 ∧
    ((h.type.outputs = none ∨ h.type.outputs = some [] ∨
        respData result = none ∨ respData result = some []) →
      resp.body.data = some (.bytes [])) ∧
    (∀ outs vals, h.type.outputs = some outs → respData result = some vals →
      vals ≠ [] →
      ∃ enc, coder.encode outs vals = .ok enc ∧
        resp.body.data = some (.bytes enc)) := by
  cases ho : h.type.outputs with
  | none =>
      have hval : serverCall coder handlers c =
          .ok ⟨200, { data := some (.bytes []), ttl := respExtra result }⟩ := by
        cases result <;> simp [serverCall, hh, hdec, hfun, herr, ho]
      rw [hval] at hok
      injection hok with hok
      subst hok
      refine ⟨rfl, fun _ => rfl, fun outs vals houts => ?_⟩
      exact absurd houts (by simp)
  | some outs =>
      cases result with
      | none =>
          have hval : serverCall coder handlers c =
              .ok ⟨200, { data := some (.bytes []), ttl := none }⟩ := by
            simp [serverCall, hh, hdec, hfun, herr, ho, respExtra]
          rw [hval] at hok
          injection hok with hok
          subst hok
          refine ⟨rfl, fun _ => rfl, fun outs' vals houts hvals => ?_⟩
          simp [respData] at hvals
      | some r =>
          cases hd : r.data with
          | none =>
              have hval : serverCall coder handlers c =
                  .ok ⟨200, { data := some (.bytes []), ttl := respExtra (some r) }⟩ := by
                simp [serverCall, hh, hdec, hfun, herr, ho, hd]
              rw [hval] at hok
              injection hok with hok
              subst hok
              refine ⟨rfl, fun _ => rfl, fun outs' vals houts hvals => ?_⟩
              simp [respData, hd] at hvals
          | some vals =>
              by_cases hv : vals = []
              · subst hv
                have hval : serverCall coder handlers c =
                    .ok ⟨200, { data := some (.bytes []), ttl := respExtra (some r) }⟩ := by
                  simp [serverCall, hh, hdec, hfun, herr, ho, hd]
                rw [hval] at hok
                injection hok with hok
                subst hok
                refine ⟨rfl, fun _ => rfl, fun outs' vals' houts hvals hne => ?_⟩
                simp [respData, hd] at hvals
                exact absurd hvals hne
              · cases henc : coder.encode outs vals with
                | error e =>
                    have hval : serverCall coder handlers c = .error e := by
                      simp [serverCall, hh, hdec, hfun, herr, ho, hd, hv, henc]
                    rw [hval] at hok
                    exact (Except.noConfusion hok)
                | ok enc =>
                    have hval : serverCall coder handlers c =
                        .ok ⟨200, { data := some (.bytes enc), ttl := respExtra (some r) }⟩ := by
                      simp [serverCall, hh, hdec, hfun, herr, ho, hd, hv, henc]
                    rw [hval] at hok
                    injection hok with hok
                    subst hok
                    refine ⟨rfl, ?_, ?_⟩
                    · intro hcase
                      rcases hcase with hc | hc | hc | hc
                      · exact absurd hc (by simp)
                      · have hout0 : outs = [] := by injection hc
                        subst hout0
                        have hnil : vals = [] := by
                          have hlen0 := hLen [] vals enc henc
                          cases vals with
                          | nil => rfl
                          | cons a t => simp at hlen0
                        exact absurd hnil hv
                      · simp [respData, hd] at hc
                      · simp [respData, hd] at hc
                        exact absurd hc hv
                    · intro outs' vals' houts hvals hne
                      have houts' : outs' = outs := by
                        injection houts with hx
                        exact hx.symm
                      have hvals' : vals' = vals := by
                        simp [respData, hd] at hvals
                        exact hvals.symm
                      subst houts'
                      subst hvals'
                      exact ⟨enc, henc, rfl⟩

/-- A coder for the `text` fixture: decodes to a node/key pair, and encodes
only when the type and value lists have matching length. -/
def cLenCoder : AbiCoder :=
  ⟨fun _ _ => .ok [Val.bytes (List.replicate 32 0), Val.str "avatar"],
   fun ts vs =>
     if ts.length = vs.length then .ok [] else .error "types/values length mismatch"⟩

/-- A table registering the `text` read handler over an empty repository
under selector `0x05060708`. -/
def cTextTable : HandlerTable :=
  fun s =>
    if s = [5, 6, 7, 8] then some ⟨textFragment, withGetTextFunc (fun _ _ => none)⟩
    else none

/-- Witness for C7: `text(node, 'avatar')` for a node with no stored records
dispatches to status 200 with empty data `0x`, not an error. -/
theorem dispatch_success_encoding_witness :
    serverCall cLenCoder cTextTable ⟨[], [5, 6, 7, 8]⟩ =
      .ok ⟨200, { data := some (.bytes []) }⟩ ∧
    (⟨200, { data := some (.bytes []) }⟩ : RPCResponse).status = 200 ∧
    (⟨200, { data := some (.bytes []) }⟩ : RPCResponse).body.data =
      some (.bytes []) := by
  have hok : serverCall cLenCoder cTextTable ⟨[], [5, 6, 7, 8]⟩ =
      .ok ⟨200, { data := some (.bytes []) }⟩ := rfl
  have hLen : ∀ ts vs b, cLenCoder.encode ts vs = .ok b →
      ts.length = vs.length := by
    intro ts vs b hx
    by_cases hl : ts.length = vs.length
    · exact hl
    · simp [cLenCoder, hl] at hx
  have h := dispatch_success_encoding cLenCoder cTextTable ⟨[], [5, 6, 7, 8]⟩
    ⟨textFragment, withGetTextFunc (fun _ _ => none)⟩
    [Val.bytes (List.replicate 32 0), Val.str "avatar"] none
    ⟨200, { data := some (.bytes []) }⟩ hLen rfl rfl rfl rfl hok
  exact ⟨hok, h.1, h.2.1 (Or.inr (Or.inr (Or.inl rfl)))⟩

/-! ## Claim about the multicall handler -/

/-- `getD` through `map` at an in-range index. -/
theorem map_getD_of_lt {α β : Type} (f : α → β) (l : List α) (i : Nat)
    (hi : i < l.length) (d : α) (d' : β) :
    (l.map f).getD i d' = f (l.getD i d) := by
  induction l generalizing i with
  | nil => simp at hi
  | cons a t ih =>
      cases i with
      | zero => rfl
      | succ j => simpa using ih j (by simpa using hi)

/-- Claim C1: a multicall batch whose dispatch succeeds returns status 200
with the encoded results array; that array has exactly one slot per inner
call, in input order, and each slot holds the inner dispatch's data when that
dispatch returned status 200, and otherwise (non-200 status or a thrown
exception) the 4-byte `Error(string)` selector followed by the ABI-encoded
failure message — no inner failure aborts the batch. -/
theorem multicall_batch_isolation (keccak : Bytes → Bytes) (coder : AbiCoder)
    (handlers : HandlerTable) (callFn : RPCCall → Except String RPCResponse)
    (sel rest dest : Bytes) (datas : List Bytes) (enc : Bytes)
    (hsel : sel.length = 4)
    (hh : handlers sel = some ⟨multicallFragment, multicallFunc keccak callFn⟩)
    (hdec : coder.decode multicallFragment.inputs rest =
      .ok [Val.arr (datas.map Val.bytes)])
    (henc : coder.encode ["bytes[]"]
        [Val.arr (datas.map (multicallSlot keccak callFn dest))] = .ok enc) :
    serverCall coder handlers ⟨dest, sel ++ rest⟩ =
      .ok ⟨200, { data := some (.bytes enc) }⟩ ∧
    (datas.map (multicallSlot keccak callFn dest)).length = datas.length ∧
    (∀ i, i < datas.length →
      (datas.map (multicallSlot keccak callFn dest)).getD i Val.undef =
        multicallSlot keccak callFn dest (datas.getD i []) ∧
      multicallSlot keccak callFn dest (datas.getD i []) =
        (match callFn ⟨dest, datas.getD i []⟩ with
         | .ok r =>
             if r.status = 200 then bodyDataVal r.body.data
             else Val.bytes (errorSelector keccak ++
               abiEncodeString (messageOr r.body.message))
         | .error e =>
             Val.bytes (errorSelector keccak ++ abiEncodeString e))) := by
  have htake : (sel ++ rest).take 4 = sel := by
    rw [← hsel]
    exact List.take_left sel rest
  have hdrop : (sel ++ rest).drop 4 = rest := by
    rw [← hsel]
    exact List.drop_left sel rest
  have hfunc : multicallFunc keccak callFn [Val.arr (datas.map Val.bytes)]
      ⟨dest, sel ++ rest⟩ =
      .ok (some (HandlerResponse.mk
        (some [Val.arr (datas.map (multicallSlot keccak callFn dest))]) none none)) := by
    simp [multicallFunc, List.map_map, Function.comp, valBytes]
  have hdec' : coder.decode ["bytes[]"] rest = .ok [Val.arr (datas.map Val.bytes)] :=
    hdec
  refine ⟨?_, List.length_map _ _, fun i hi => ⟨map_getD_of_lt _ _ _ hi _ _, rfl⟩⟩
  simp [serverCall, htake, hdrop, hh, hdec', hfunc, henc, respError, respExtra,
    multicallFragment]

/-- Hash stub for the multicall fixture. -/
def cKeccak : Bytes → Bytes := fun _ => List.replicate 32 0

/-- An inner dispatch that succeeds on calldata `0x01` and throws otherwise. -/
def cInnerCallFn : RPCCall → Except String RPCResponse :=
  fun c =>
    if c.data = [1] then .ok ⟨200, { data := some (.bytes [0xaa]) }⟩
    else .error "Error: fail"

/-- A coder decoding the fixture batch `[0x01, 0x02]` and encoding to `0x09`. -/
def cMcCoder : AbiCoder :=
  ⟨fun _ _ => .ok [Val.arr [Val.bytes [1], Val.bytes [2]]], fun _ _ => .ok [9]⟩

/-- A table registering the multicall handler under selector `0x08010203`. -/
def cMcTable : HandlerTable :=
  fun s =>
    if s = [8, 1, 2, 3] then
      some ⟨multicallFragment, multicallFunc cKeccak cInnerCallFn⟩
    else none

/-- Witness for C1: the batch `[callA(success), callB(throws)]` dispatches to
status 200 with two ordered slots — callA's data and an `Error(string)`
payload for callB. -/
theorem multicall_batch_isolation_witness :
    serverCall cMcCoder cMcTable ⟨[7], [8, 1, 2, 3]⟩ =
      .ok ⟨200, { data := some (.bytes [9]) }⟩ ∧
    ([[1], [2]].map (multicallSlot cKeccak cInnerCallFn [7])).length = 2 ∧
    ([[1], [2]].map (multicallSlot cKeccak cInnerCallFn [7])).getD 0 Val.undef =
      Val.bytes [0xaa] ∧
    ([[1], [2]].map (multicallSlot cKeccak cInnerCallFn [7])).getD 1 Val.undef =
      Val.bytes (errorSelector cKeccak ++ abiEncodeString "Error: fail") := by
  have h := multicall_batch_isolation cKeccak cMcCoder cMcTable cInnerCallFn
    [8, 1, 2, 3] [] [7] [[1], [2]] [9] rfl rfl rfl rfl
  refine ⟨h.1, h.2.1, ?_, ?_⟩
  · rw [(h.2.2 0 (by decide)).1]
    rfl
  · rw [(h.2.2 1 (by decide)).1]
    rfl

end ExternalResolver
